import Mathlib

/-!
Shallow embedding of the segment-allocation engine of this repository: the
ML2 GRE type driver (src/neutron/plugins/ml2/drivers/type_gre.py) and the
Cisco N1KV allocation database layer
(src/quantum/plugins/cisco/db/n1kv_db_v2.py).

A SQLAlchemy table becomes a list of records in insertion order, a session
mutation becomes a function from store to store, and a raised exception
becomes an error value.  Raising inside a session.begin block rolls the
transaction back, so an error result carries no updated store.
-/

namespace Neutron

/-- Errors observable from the allocation engine: the SQLAlchemy lookup
errors, the allocator exceptions, and the Python UnboundLocalError that
release_static_segment hits in its except-handler. -/
inductive PyErr where
  | noResultFound
  | multipleResultsFound
  | unboundLocalError
  | tunnelIdInUse (tunnel_id : Int)
  | flatNetworkInUse (physical_network : String)
  | vlanIdInUse (vlan_id : Int) (physical_network : String)
  | vxlanIdInUse (vxlan_id : Int)
  | noNetworkAvailable
  deriving Repr, DecidableEq

/-- Result of query(...).one(): exactly one matching row, or NoResultFound /
MultipleResultsFound. -/
def oneResult {α : Type} (l : List α) : Except PyErr α :=
  match l with
  | [] => .error .noResultFound
  | [a] => .ok a
  | _ => .error .multipleResultsFound

/-- In-place mutation of the row object a query returned: the first record
satisfying the query predicate is replaced by its updated version. -/
def updateFirst {α : Type} (p : α → Bool) (f : α → α) : List α → List α
  | [] => []
  | a :: rest => if p a then f a :: rest else a :: updateFirst p f rest

/-- set(xrange(lo, hi + 1)) as an ascending list (empty when hi < lo). -/
def rangeIds (lo hi : Int) : List Int :=
  (List.range (hi + 1 - lo).toNat).map (fun k => lo + Int.ofNat k)

/-- Union of configured tunnel ranges with the 1,000,000-cardinality ceiling
applied per range, deduplicated as a Python set.  This is the gre_ids or
vxlan_ids set built by _sync_gre_allocations, sync_vxlan_allocations and
delete_vxlan_allocations. -/
def tunnelIdsOf (ranges : List (Int × Int)) : List Int :=
  (ranges.foldl
    (fun acc r =>
      if r.2 + 1 - r.1 > 1000000 then acc else acc ++ rangeIds r.1 r.2)
    []).dedup

/-- Union of configured VLAN ranges (sync_vlan_allocations and
delete_vlan_allocations apply no cardinality ceiling), deduplicated. -/
def vlanIdsOf (ranges : List (Int × Int)) : List Int :=
  (ranges.foldl (fun acc r => acc ++ rangeIds r.1 r.2) []).dedup

/-- Row of ml2_gre_allocations (type_gre.py, class GreAllocation). -/
structure GreAllocation where
  gre_id : Int
  allocated : Bool
  network_id : Option String
  provider_network : Bool
  deriving Repr, DecidableEq

/-- Row of the N1KV VLAN allocation table, constructed in n1kv_db_v2.py as
N1kvVlanAllocation(physical_network, vlan_id) and carrying an allocated
flag; the model class lives in n1kv_models_v2, which is not under src. -/
structure N1kvVlanAllocation where
  physical_network : String
  vlan_id : Int
  allocated : Bool
  deriving Repr, DecidableEq

/-- Row of the N1KV VXLAN allocation table, constructed as
N1kvVxlanAllocation(vxlan_id); the model class is not under src. -/
structure N1kvVxlanAllocation where
  vxlan_id : Int
  allocated : Bool
  deriving Repr, DecidableEq

/-- Row of ml2_gre_endpoints: only an ip_address primary key, no local id. -/
structure GreEndpoints where
  ip_address : String
  deriving Repr, DecidableEq

/-- Row of the N1KV VXLAN endpoint table (local id plus ip_address); the
model class is not under src, its two constructor arguments appear in
add_vxlan_endpoint. -/
structure N1kvVxlanEndpoint where
  id : Int
  ip_address : String
  deriving Repr, DecidableEq

/-- reserve_provider_segment (type_gre.py): reserve a specific GRE tunnel
id.  An absent id is created directly as allocated (without network_id, the
code only passes gre_id, allocated and provider_network to the
constructor); an allocated id raises TunnelIdInUse. -/
def reserve_provider_segment (s : List GreAllocation) (network_id : String)
    (segmentation_id : Int) : Except PyErr (List GreAllocation × Int) :=
  match oneResult (s.filter (fun a => a.gre_id == segmentation_id)) with
  | .ok alloc =>
    if alloc.allocated then
      .error (.tunnelIdInUse segmentation_id)
    else
      .ok (updateFirst (fun a => a.gre_id == segmentation_id)
            (fun a =>
              { a with
                allocated := true
                network_id := some network_id
                provider_network := true }) s,
           alloc.gre_id)
  | .error .noResultFound =>
    .ok (s ++ [{ gre_id := segmentation_id
                 allocated := true
                 network_id := none
                 provider_network := true }],
         segmentation_id)
  | .error e => .error e

/-- allocate_tenant_segment (type_gre.py): flip the first unallocated row
(no range bound on the query) and attach network_id; when every row is
allocated the function falls through and returns no segment and no error. -/
def allocate_tenant_segment (s : List GreAllocation) (network_id : String) :
    List GreAllocation × Option Int :=
  match (s.filter (fun a => a.allocated == false)).head? with
  | some alloc =>
    (updateFirst (fun a => a.allocated == false)
      (fun a => { a with allocated := true, network_id := some network_id }) s,
     some alloc.gre_id)
  | none => (s, none)

/-- release_static_segment (type_gre.py): look up by network_id, set
allocated to false, then delete the row unless its gre_id lies in some
configured range.  When no row matches, the except-handler itself evaluates
the local variable gre_id that was never assigned, so the operation dies
with UnboundLocalError instead of the intended warning. -/
def release_static_segment (s : List GreAllocation) (network_id : String)
    (gre_id_ranges : List (Int × Int)) : Except PyErr (List GreAllocation) :=
  match oneResult (s.filter (fun a => a.network_id == some network_id)) with
  | .ok alloc =>
    if gre_id_ranges.any
        (fun r => decide (r.1 ≤ alloc.gre_id) && decide (alloc.gre_id ≤ r.2)) then
      .ok (updateFirst (fun a => a.network_id == some network_id)
            (fun a => { a with allocated := false }) s)
    else
      .ok (s.filter (fun a => !(a.network_id == some network_id)))
  | .error .noResultFound => .error .unboundLocalError
  | .error e => .error e

/-- The per-row loop of _sync_gre_allocations: walk the table once, erasing
each seen id from the configured set (gre_ids.remove), and deleting
unallocated rows whose id is not in the set.  Returns the surviving rows in
order together with the ids still missing from the table. -/
def syncScan : List GreAllocation → List Int → List GreAllocation × List Int
  | [], ids => ([], ids)
  | a :: rest, ids =>
    if a.gre_id ∈ ids then
      (a :: (syncScan rest (ids.erase a.gre_id)).1,
       (syncScan rest (ids.erase a.gre_id)).2)
    else if a.allocated then
      (a :: (syncScan rest ids).1, (syncScan rest ids).2)
    else
      syncScan rest ids

/-- Fresh row added by the GRE synchronizer: GreAllocation(gre_id=gre_id)
with the column defaults allocated=False, network_id NULL,
provider_network False. -/
def newGreAllocation (i : Int) : GreAllocation :=
  { gre_id := i
    allocated := false
    network_id := none
    provider_network := false }

/-- _sync_gre_allocations (type_gre.py): build the configured id set with
the oversized-range ceiling, scan the table deleting stale unallocated
rows, then append the missing ids in ascending order. -/
def _sync_gre_allocations (gre_id_ranges : List (Int × Int))
    (s : List GreAllocation) : List GreAllocation :=
  (syncScan s (tunnelIdsOf gre_id_ranges)).1 ++
    ((syncScan s (tunnelIdsOf gre_id_ranges)).2.mergeSort
      (fun i j => decide (i ≤ j))).map newGreAllocation

/-- add_endpoint (type_gre.py): deduplicated by ip; an existing row is
returned unchanged (with a warning), otherwise a new row is inserted. -/
def add_endpoint (s : List GreEndpoints) (ip : String) :
    Except PyErr (List GreEndpoints × GreEndpoints) :=
  match oneResult (s.filter (fun e => e.ip_address == ip)) with
  | .ok e => .ok (s, e)
  | .error .noResultFound =>
    .ok (s ++ [{ ip_address := ip }], { ip_address := ip })
  | .error e => .error e

/-- Loop body of sync_vlan_allocations: the try/except around
query(...).one() — add a fresh unallocated row for vid unless some row for
(physical_network, vid) already exists. -/
def addMissingVlan (physical_network : String)
    (st : List N1kvVlanAllocation) (vid : Int) : List N1kvVlanAllocation :=
  if st.any (fun a => a.physical_network == physical_network && a.vlan_id == vid) then
    st
  else
    st ++ [{ physical_network := physical_network
             vlan_id := vid
             allocated := false }]

/-- sync_vlan_allocations (n1kv_db_v2.py): per physical network, add a row
for each configured vlan id not yet present.  Nothing is ever deleted and
no range-cardinality ceiling is applied. -/
def sync_vlan_allocations
    (network_vlan_ranges : List (String × List (Int × Int)))
    (s : List N1kvVlanAllocation) : List N1kvVlanAllocation :=
  network_vlan_ranges.foldl
    (fun st e =>
      ((vlanIdsOf e.2).mergeSort (fun i j => decide (i ≤ j))).foldl
        (addMissingVlan e.1) st)
    s

/-- delete_vlan_allocations (n1kv_db_v2.py): for each physical network,
delete the unallocated rows whose vlan id lies in the given (deleted
profile) ranges; allocated rows are kept. -/
def delete_vlan_allocations
    (network_vlan_ranges : List (String × List (Int × Int)))
    (s : List N1kvVlanAllocation) : List N1kvVlanAllocation :=
  network_vlan_ranges.foldl
    (fun st e =>
      st.filter (fun a =>
        !(a.physical_network == e.1 &&
          decide (a.vlan_id ∈ vlanIdsOf e.2) && !a.allocated)))
    s

/-- reserve_vlan (n1kv_db_v2.py); seg_min and seg_max come from
profile.get_segment_range.  Flips the first free in-range row and returns
its physical network and vlan id; nothing else (in particular no owner
reference) is written.  Raises NoNetworkAvailable when no free in-range row
exists. -/
def reserve_vlan (s : List N1kvVlanAllocation) (seg_min seg_max : Int) :
    Except PyErr (List N1kvVlanAllocation × String × Int) :=
  match (s.filter (fun a =>
      decide (seg_min ≤ a.vlan_id) && decide (a.vlan_id ≤ seg_max) &&
      a.allocated == false)).head? with
  | some alloc =>
    .ok (updateFirst (fun a =>
          decide (seg_min ≤ a.vlan_id) && decide (a.vlan_id ≤ seg_max) &&
          a.allocated == false)
          (fun a => { a with allocated := true }) s,
         alloc.physical_network, alloc.vlan_id)
  | none => .error .noNetworkAvailable

/-- reserve_vxlan (n1kv_db_v2.py): same selection as reserve_vlan on the
VXLAN table, returning the vxlan id. -/
def reserve_vxlan (s : List N1kvVxlanAllocation) (seg_min seg_max : Int) :
    Except PyErr (List N1kvVxlanAllocation × Int) :=
  match (s.filter (fun a =>
      decide (seg_min ≤ a.vxlan_id) && decide (a.vxlan_id ≤ seg_max) &&
      a.allocated == false)).head? with
  | some alloc =>
    .ok (updateFirst (fun a =>
          decide (seg_min ≤ a.vxlan_id) && decide (a.vxlan_id ≤ seg_max) &&
          a.allocated == false)
          (fun a => { a with allocated := true }) s,
         alloc.vxlan_id)
  | none => .error .noNetworkAvailable

/-- reserve_specific_vlan (n1kv_db_v2.py).  The parameter flat_vlan_id
stands for const.FLAT_VLAN_ID, whose defining module cisco_constants is not
under src; the theorems below hold for every value of it. -/
def reserve_specific_vlan (flat_vlan_id : Int) (s : List N1kvVlanAllocation)
    (physical_network : String) (vlan_id : Int) :
    Except PyErr (List N1kvVlanAllocation) :=
  match oneResult (s.filter (fun a =>
      a.physical_network == physical_network && a.vlan_id == vlan_id)) with
  | .ok alloc =>
    if alloc.allocated then
      if vlan_id == flat_vlan_id then
        .error (.flatNetworkInUse physical_network)
      else
        .error (.vlanIdInUse vlan_id physical_network)
    else
      .ok (updateFirst (fun a =>
            a.physical_network == physical_network && a.vlan_id == vlan_id)
            (fun a => { a with allocated := true }) s)
  | .error .noResultFound =>
    .ok (s ++ [{ physical_network := physical_network
                 vlan_id := vlan_id
                 allocated := true }])
  | .error e => .error e

/-- reserve_specific_vxlan (n1kv_db_v2.py). -/
def reserve_specific_vxlan (s : List N1kvVxlanAllocation) (vxlan_id : Int) :
    Except PyErr (List N1kvVxlanAllocation) :=
  match oneResult (s.filter (fun a => a.vxlan_id == vxlan_id)) with
  | .ok alloc =>
    if alloc.allocated then
      .error (.vxlanIdInUse vxlan_id)
    else
      .ok (updateFirst (fun a => a.vxlan_id == vxlan_id)
            (fun a => { a with allocated := true }) s)
  | .error .noResultFound =>
    .ok (s ++ [{ vxlan_id := vxlan_id, allocated := true }])
  | .error e => .error e

/-- release_vlan (n1kv_db_v2.py): flips allocated to false.  The loop over
network_vlan_ranges only computes the inside flag used to pick the wording
of a debug message; the row is never deleted, whether the id is inside the
configured ranges or not.  An absent row is a warned no-op. -/
def release_vlan (s : List N1kvVlanAllocation) (physical_network : String)
    (vlan_id : Int)
    (network_vlan_ranges : List (String × List (Int × Int))) :
    Except PyErr (List N1kvVlanAllocation) :=
  match oneResult (s.filter (fun a =>
      a.physical_network == physical_network && a.vlan_id == vlan_id)) with
  | .ok _ =>
    .ok (updateFirst (fun a =>
          a.physical_network == physical_network && a.vlan_id == vlan_id)
          (fun a => { a with allocated := false }) s)
  | .error .noResultFound => .ok s
  | .error e => .error e

/-- release_vxlan (n1kv_db_v2.py): same shape as release_vlan, the inside
flag again only feeds the debug message and the row is never deleted. -/
def release_vxlan (s : List N1kvVxlanAllocation) (vxlan_id : Int)
    (vxlan_id_ranges : List (Int × Int)) :
    Except PyErr (List N1kvVxlanAllocation) :=
  match oneResult (s.filter (fun a => a.vxlan_id == vxlan_id)) with
  | .ok _ =>
    .ok (updateFirst (fun a => a.vxlan_id == vxlan_id)
          (fun a => { a with allocated := false }) s)
  | .error .noResultFound => .ok s
  | .error e => .error e

/-- Loop body of sync_vxlan_allocations: add a fresh unallocated row for
vid unless a row for it already exists. -/
def addMissingVxlan (st : List N1kvVxlanAllocation) (vid : Int) :
    List N1kvVxlanAllocation :=
  if st.any (fun a => a.vxlan_id == vid) then st
  else st ++ [{ vxlan_id := vid, allocated := false }]

/-- sync_vxlan_allocations (n1kv_db_v2.py): build the configured id set
with the oversized-range ceiling, then add a row for each id not yet
present.  Nothing is ever deleted by this function. -/
def sync_vxlan_allocations (vxlan_id_ranges : List (Int × Int))
    (s : List N1kvVxlanAllocation) : List N1kvVxlanAllocation :=
  ((tunnelIdsOf vxlan_id_ranges).mergeSort (fun i j => decide (i ≤ j))).foldl
    addMissingVxlan s

/-- delete_vxlan_allocations (n1kv_db_v2.py): delete the unallocated rows
whose vxlan id lies in the given ranges (oversized ranges skipped);
allocated rows are kept. -/
def delete_vxlan_allocations (vxlan_id_ranges : List (Int × Int))
    (s : List N1kvVxlanAllocation) : List N1kvVxlanAllocation :=
  s.filter (fun a =>
    !(decide (a.vxlan_id ∈ tunnelIdsOf vxlan_id_ranges) && !a.allocated))

/-- _generate_vxlan_id (n1kv_db_v2.py): 1 + the maximum existing endpoint
id, and 1 when the table is empty (the id variable starts at 0). -/
def _generate_vxlan_id (s : List N1kvVxlanEndpoint) : Int :=
  (match s.map (fun v => v.id) with
   | [] => 0
   | x :: xs => xs.foldl max x) + 1

/-- add_vxlan_endpoint (n1kv_db_v2.py): deduplicated by ip; an existing row
is returned unchanged, otherwise a row with the freshly generated local id
is inserted and returned. -/
def add_vxlan_endpoint (s : List N1kvVxlanEndpoint) (ip : String) :
    Except PyErr (List N1kvVxlanEndpoint × N1kvVxlanEndpoint) :=
  match oneResult (s.filter (fun v => v.ip_address == ip)) with
  | .ok v => .ok (s, v)
  | .error .noResultFound =>
    .ok (s ++ [{ id := _generate_vxlan_id s, ip_address := ip }],
         { id := _generate_vxlan_id s, ip_address := ip })
  | .error e => .error e

/-! ### Lemmas about the range helpers -/

theorem mem_rangeIds {lo hi i : Int} : i ∈ rangeIds lo hi ↔ lo ≤ i ∧ i ≤ hi := by
  unfold rangeIds
  constructor
  · intro h
    obtain ⟨k, hk, hk2⟩ := List.mem_map.mp h
    rw [List.mem_range] at hk
    rw [Int.ofNat_eq_coe] at hk2
    omega
  · intro h
    refine List.mem_map.mpr ⟨(i - lo).toNat, List.mem_range.mpr (by omega), ?_⟩
    rw [Int.ofNat_eq_coe]
    omega

theorem mem_vlanUnion (rs : List (Int × Int)) (acc : List Int) (i : Int) :
    i ∈ rs.foldl (fun acc r => acc ++ rangeIds r.1 r.2) acc ↔
      i ∈ acc ∨ ∃ r ∈ rs, r.1 ≤ i ∧ i ≤ r.2 := by
  induction rs generalizing acc with
  | nil => simp
  | cons r rest ih =>
    rw [List.foldl_cons, ih]
    simp only [List.mem_append, mem_rangeIds, List.mem_cons]
    constructor
    · rintro ((ha | hio) | ⟨r₀, hr₀, hio⟩)
      · exact Or.inl ha
      · exact Or.inr ⟨r, Or.inl rfl, hio⟩
      · exact Or.inr ⟨r₀, Or.inr hr₀, hio⟩
    · rintro (ha | ⟨r₀, (rfl | hr₀), hio⟩)
      · exact Or.inl (Or.inl ha)
      · exact Or.inl (Or.inr hio)
      · exact Or.inr ⟨r₀, hr₀, hio⟩

theorem mem_vlanIdsOf {rs : List (Int × Int)} {i : Int} :
    i ∈ vlanIdsOf rs ↔ ∃ r ∈ rs, r.1 ≤ i ∧ i ≤ r.2 := by
  unfold vlanIdsOf
  rw [List.mem_dedup, mem_vlanUnion]
  simp

theorem mem_tunnelUnion (rs : List (Int × Int)) (acc : List Int) (i : Int) :
    i ∈ rs.foldl
        (fun acc r =>
          if r.2 + 1 - r.1 > 1000000 then acc else acc ++ rangeIds r.1 r.2)
        acc ↔
      i ∈ acc ∨ ∃ r ∈ rs, r.1 ≤ i ∧ i ≤ r.2 ∧ r.2 + 1 - r.1 ≤ 1000000 := by
  induction rs generalizing acc with
  | nil => simp
  | cons r rest ih =>
    rw [List.foldl_cons]
    by_cases h : r.2 + 1 - r.1 > 1000000
    · rw [if_pos h, ih]
      simp only [List.mem_cons]
      constructor
      · rintro (ha | ⟨r₀, hr₀, hio⟩)
        · exact Or.inl ha
        · exact Or.inr ⟨r₀, Or.inr hr₀, hio⟩
      · rintro (ha | ⟨r₀, (rfl | hr₀), hio⟩)
        · exact Or.inl ha
        · omega
        · exact Or.inr ⟨r₀, hr₀, hio⟩
    · rw [if_neg h, ih]
      simp only [List.mem_append, mem_rangeIds, List.mem_cons]
      constructor
      · rintro ((ha | hio) | ⟨r₀, hr₀, hio⟩)
        · exact Or.inl ha
        · exact Or.inr ⟨r, Or.inl rfl, hio.1, hio.2, by omega⟩
        · exact Or.inr ⟨r₀, Or.inr hr₀, hio⟩
      · rintro (ha | ⟨r₀, (rfl | hr₀), hio⟩)
        · exact Or.inl (Or.inl ha)
        · exact Or.inl (Or.inr ⟨hio.1, hio.2.1⟩)
        · exact Or.inr ⟨r₀, hr₀, hio⟩

theorem mem_tunnelIdsOf {rs : List (Int × Int)} {i : Int} :
    i ∈ tunnelIdsOf rs ↔
      ∃ r ∈ rs, r.1 ≤ i ∧ i ≤ r.2 ∧ r.2 + 1 - r.1 ≤ 1000000 := by
  unfold tunnelIdsOf
  rw [List.mem_dedup, mem_tunnelUnion]
  simp

theorem nodup_tunnelIdsOf (rs : List (Int × Int)) : (tunnelIdsOf rs).Nodup :=
  List.nodup_dedup _

/-! ### Lemmas about updateFirst and query results -/

theorem updateFirst_append {α : Type} (p : α → Bool) (f : α → α) (s₁ : List α)
    (a : α) (s₂ : List α) (h1 : ∀ b ∈ s₁, p b = false) (h2 : p a = true) :
    updateFirst p f (s₁ ++ a :: s₂) = s₁ ++ f a :: s₂ := by
  induction s₁ with
  | nil => simp [updateFirst, h2]
  | cons b rest ih =>
    have hb := h1 b (by simp)
    simp only [List.cons_append, updateFirst, hb, Bool.false_eq_true, if_false,
      List.cons.injEq, true_and]
    exact ih (fun x hx => h1 x (by simp [hx]))

theorem head_filter_split {α : Type} {p : α → Bool} {s : List α} {a : α}
    (h : (s.filter p).head? = some a) :
    ∃ s₁ s₂, s = s₁ ++ a :: s₂ ∧ (∀ b ∈ s₁, p b = false) ∧ p a = true := by
  induction s with
  | nil => simp at h
  | cons b rest ih =>
    by_cases hb : p b
    · rw [List.filter_cons_of_pos hb] at h
      simp only [List.head?_cons, Option.some.injEq] at h
      subst h
      exact ⟨[], rest, by simp, by simp, hb⟩
    · rw [List.filter_cons_of_neg (by simpa using hb)] at h
      obtain ⟨s₁, s₂, rfl, hh1, hh2⟩ := ih h
      exact ⟨b :: s₁, s₂, by simp, by
        intro x hx
        rcases List.mem_cons.mp hx with rfl | hx
        · simpa using hb
        · exact hh1 x hx, hh2⟩

theorem head_filter_mem {α : Type} {p : α → Bool} {s : List α} {a : α}
    (h : (s.filter p).head? = some a) : a ∈ s ∧ p a = true := by
  obtain ⟨s₁, s₂, rfl, _, h2⟩ := head_filter_split h
  exact ⟨by simp, h2⟩

/-! ### Lemmas about the GRE synchronizer scan -/

theorem syncScan_keep_sub :
    ∀ (s : List GreAllocation) (ids : List Int),
      ∀ a ∈ (syncScan s ids).1, a ∈ s := by
  intro s
  induction s with
  | nil => intro ids a ha; simp [syncScan] at ha
  | cons b rest ih =>
    intro ids a ha
    by_cases h1 : b.gre_id ∈ ids
    · simp only [syncScan, if_pos h1] at ha
      rcases List.mem_cons.mp ha with rfl | ha
      · exact List.mem_cons_self _ _
      · exact List.mem_cons_of_mem _ (ih _ a ha)
    · by_cases h2 : b.allocated = true
      · simp only [syncScan, if_neg h1, if_pos h2] at ha
        rcases List.mem_cons.mp ha with rfl | ha
        · exact List.mem_cons_self _ _
        · exact List.mem_cons_of_mem _ (ih _ a ha)
      · simp only [syncScan, if_neg h1, if_neg h2] at ha
        exact List.mem_cons_of_mem _ (ih _ a ha)

theorem syncScan_alloc_mem :
    ∀ (s : List GreAllocation) (ids : List Int),
      ∀ a ∈ s, a.allocated = true → a ∈ (syncScan s ids).1 := by
  intro s
  induction s with
  | nil => intro ids a ha; simp at ha
  | cons b rest ih =>
    intro ids a ha halloc
    rcases List.mem_cons.mp ha with rfl | ha
    · by_cases h1 : a.gre_id ∈ ids
      · simp only [syncScan, if_pos h1]
        exact List.mem_cons_self _ _
      · simp only [syncScan, if_neg h1, if_pos halloc]
        exact List.mem_cons_self _ _
    · by_cases h1 : b.gre_id ∈ ids
      · simp only [syncScan, if_pos h1]
        exact List.mem_cons_of_mem _ (ih _ a ha halloc)
      · by_cases h2 : b.allocated = true
        · simp only [syncScan, if_neg h1, if_pos h2]
          exact List.mem_cons_of_mem _ (ih _ a ha halloc)
        · simp only [syncScan, if_neg h1, if_neg h2]
          exact ih _ a ha halloc

theorem syncScan_keep_unalloc :
    ∀ (s : List GreAllocation) (ids : List Int),
      ∀ a ∈ (syncScan s ids).1, a.allocated = false → a.gre_id ∈ ids := by
  intro s
  induction s with
  | nil => intro ids a ha; simp [syncScan] at ha
  | cons b rest ih =>
    intro ids a ha hun
    by_cases h1 : b.gre_id ∈ ids
    · simp only [syncScan, if_pos h1] at ha
      rcases List.mem_cons.mp ha with rfl | ha
      · exact h1
      · exact List.mem_of_mem_erase (ih _ a ha hun)
    · by_cases h2 : b.allocated = true
      · simp only [syncScan, if_neg h1, if_pos h2] at ha
        rcases List.mem_cons.mp ha with rfl | ha
        · rw [hun] at h2; cases h2
        · exact ih _ a ha hun
      · simp only [syncScan, if_neg h1, if_neg h2] at ha
        exact ih _ a ha hun

theorem syncScan_rem_sub :
    ∀ (s : List GreAllocation) (ids : List Int),
      ∀ i ∈ (syncScan s ids).2, i ∈ ids := by
  intro s
  induction s with
  | nil => intro ids i hi; simpa [syncScan] using hi
  | cons b rest ih =>
    intro ids i hi
    by_cases h1 : b.gre_id ∈ ids
    · simp only [syncScan, if_pos h1] at hi
      exact List.mem_of_mem_erase (ih _ i hi)
    · by_cases h2 : b.allocated = true
      · simp only [syncScan, if_neg h1, if_pos h2] at hi
        exact ih _ i hi
      · simp only [syncScan, if_neg h1, if_neg h2] at hi
        exact ih _ i hi

theorem syncScan_rem_nodup :
    ∀ (s : List GreAllocation) (ids : List Int),
      ids.Nodup → (syncScan s ids).2.Nodup := by
  intro s
  induction s with
  | nil => intro ids h; simpa [syncScan] using h
  | cons b rest ih =>
    intro ids h
    by_cases h1 : b.gre_id ∈ ids
    · simp only [syncScan, if_pos h1]
      exact ih _ (h.erase _)
    · by_cases h2 : b.allocated = true
      · simp only [syncScan, if_neg h1, if_pos h2]
        exact ih _ h
      · simp only [syncScan, if_neg h1, if_neg h2]
        exact ih _ h

theorem syncScan_mem_ids :
    ∀ (s : List GreAllocation) (ids : List Int), ∀ i ∈ ids,
      i ∈ (syncScan s ids).2 ∨ ∃ a ∈ (syncScan s ids).1, a.gre_id = i := by
  intro s
  induction s with
  | nil => intro ids i hi; simp only [syncScan]; exact Or.inl hi
  | cons b rest ih =>
    intro ids i hi
    by_cases h1 : b.gre_id ∈ ids
    · simp only [syncScan, if_pos h1]
      by_cases heq : b.gre_id = i
      · exact Or.inr ⟨b, List.mem_cons_self _ _, heq⟩
      · rcases ih (ids.erase b.gre_id) i
          ((List.mem_erase_of_ne (fun h => heq h.symm)).mpr hi) with h | ⟨a, ha, hae⟩
        · exact Or.inl h
        · exact Or.inr ⟨a, List.mem_cons_of_mem _ ha, hae⟩
    · by_cases h2 : b.allocated = true
      · simp only [syncScan, if_neg h1, if_pos h2]
        rcases ih ids i hi with h | ⟨a, ha, hae⟩
        · exact Or.inl h
        · exact Or.inr ⟨a, List.mem_cons_of_mem _ ha, hae⟩
      · simp only [syncScan, if_neg h1, if_neg h2]
        exact ih ids i hi

theorem syncScan_fresh :
    ∀ (s : List GreAllocation) (ids : List Int), ∀ i ∈ ids,
      (∀ a ∈ s, a.gre_id ≠ i) → i ∈ (syncScan s ids).2 := by
  intro s
  induction s with
  | nil => intro ids i hi _; simpa [syncScan] using hi
  | cons b rest ih =>
    intro ids i hi hne
    by_cases h1 : b.gre_id ∈ ids
    · simp only [syncScan, if_pos h1]
      refine ih _ i ?_ (fun a ha => hne a (List.mem_cons_of_mem _ ha))
      exact (List.mem_erase_of_ne
        (fun h => hne b (List.mem_cons_self _ _) h.symm)).mpr hi
    · by_cases h2 : b.allocated = true
      · simp only [syncScan, if_neg h1, if_pos h2]
        exact ih _ i hi (fun a ha => hne a (List.mem_cons_of_mem _ ha))
      · simp only [syncScan, if_neg h1, if_neg h2]
        exact ih _ i hi (fun a ha => hne a (List.mem_cons_of_mem _ ha))

theorem syncScan_mem_keep_of_mem_ids :
    ∀ (s : List GreAllocation) (ids : List Int),
      List.Pairwise (fun x y => x.gre_id ≠ y.gre_id) s →
      ∀ a ∈ s, a.gre_id ∈ ids → a ∈ (syncScan s ids).1 := by
  intro s
  induction s with
  | nil => intro ids _ a ha; simp at ha
  | cons b rest ih =>
    intro ids hpw a ha hin
    rcases List.mem_cons.mp ha with rfl | ha
    · simp only [syncScan, if_pos hin]
      exact List.mem_cons_self _ _
    · by_cases h1 : b.gre_id ∈ ids
      · simp only [syncScan, if_pos h1]
        refine List.mem_cons_of_mem _
          (ih _ (List.pairwise_cons.mp hpw).2 a ha ?_)
        exact (List.mem_erase_of_ne
          (Ne.symm ((List.pairwise_cons.mp hpw).1 a ha))).mpr hin
      · by_cases h2 : b.allocated = true
        · simp only [syncScan, if_neg h1, if_pos h2]
          exact List.mem_cons_of_mem _
            (ih _ (List.pairwise_cons.mp hpw).2 a ha hin)
        · simp only [syncScan, if_neg h1, if_neg h2]
          exact ih _ (List.pairwise_cons.mp hpw).2 a ha hin

theorem syncScan_keep_scan :
    ∀ (s : List GreAllocation) (ids : List Int),
      syncScan (syncScan s ids).1 ids = syncScan s ids := by
  intro s
  induction s with
  | nil => intro ids; simp [syncScan]
  | cons b rest ih =>
    intro ids
    by_cases h1 : b.gre_id ∈ ids
    · simp only [syncScan, if_pos h1]
      rw [ih (ids.erase b.gre_id)]
    · by_cases h2 : b.allocated = true
      · simp only [syncScan, if_neg h1, if_pos h2]
        rw [ih ids]
      · simp only [syncScan, if_neg h1, if_neg h2]
        exact ih ids

theorem syncScan_append :
    ∀ (xs ys : List GreAllocation) (ids : List Int),
      syncScan (xs ++ ys) ids =
        ((syncScan xs ids).1 ++ (syncScan ys (syncScan xs ids).2).1,
         (syncScan ys (syncScan xs ids).2).2) := by
  intro xs
  induction xs with
  | nil => intro ys ids; simp [syncScan]
  | cons b rest ih =>
    intro ys ids
    by_cases h1 : b.gre_id ∈ ids
    · simp only [List.cons_append, syncScan, if_pos h1, List.append_eq]
      rw [ih ys (ids.erase b.gre_id)]
    · by_cases h2 : b.allocated = true
      · simp only [List.cons_append, syncScan, if_neg h1, if_pos h2,
          List.append_eq]
        rw [ih ys ids]
      · simp only [List.cons_append, syncScan, if_neg h1, if_neg h2,
          List.append_eq]
        exact ih ys ids

theorem syncScan_new :
    ∀ (l ids : List Int), l.Nodup → (∀ i ∈ l, i ∈ ids) →
      syncScan (l.map newGreAllocation) ids =
        (l.map newGreAllocation, l.foldl (fun acc i => acc.erase i) ids) := by
  intro l
  induction l with
  | nil => intro ids _ _; simp [syncScan]
  | cons i rest ih =>
    intro ids hnd hmem
    have hi : (newGreAllocation i).gre_id ∈ ids := hmem i (List.mem_cons_self _ _)
    simp only [List.map_cons, syncScan, if_pos hi]
    have hrest : ∀ j ∈ rest, j ∈ ids.erase (newGreAllocation i).gre_id := by
      intro j hj
      refine (List.mem_erase_of_ne ?_).mpr (hmem j (List.mem_cons_of_mem _ hj))
      show j ≠ i
      intro h
      subst h
      exact (List.nodup_cons.mp hnd).1 hj
    rw [ih _ (List.nodup_cons.mp hnd).2 hrest]
    simp [newGreAllocation]

theorem foldl_erase_perm :
    ∀ (l ids : List Int), List.Perm l ids →
      l.foldl (fun acc i => acc.erase i) ids = [] := by
  intro l
  induction l with
  | nil => intro ids h; simpa using h.symm.eq_nil
  | cons i rest ih =>
    intro ids h
    obtain ⟨hmem, hperm⟩ := List.cons_perm_iff_perm_erase.mp h
    simpa using ih _ hperm

/-! ### Characterization of _sync_gre_allocations -/

theorem sync_gre_mem_of_ids (rs : List (Int × Int)) (s : List GreAllocation)
    (i : Int) (hi : i ∈ tunnelIdsOf rs) :
    ∃ a ∈ _sync_gre_allocations rs s, a.gre_id = i := by
  unfold _sync_gre_allocations
  rcases syncScan_mem_ids s (tunnelIdsOf rs) i hi with h | ⟨a, ha, hae⟩
  · refine ⟨newGreAllocation i, ?_, rfl⟩
    refine List.mem_append_right _ ?_
    exact List.mem_map_of_mem _ (List.mem_mergeSort.mpr h)
  · exact ⟨a, List.mem_append_left _ ha, hae⟩

theorem sync_gre_fresh_unalloc (rs : List (Int × Int))
    (s : List GreAllocation) (i : Int) (hi : i ∈ tunnelIdsOf rs)
    (hfresh : ∀ a ∈ s, a.gre_id ≠ i) :
    ∃ a ∈ _sync_gre_allocations rs s, a.gre_id = i ∧ a.allocated = false := by
  unfold _sync_gre_allocations
  refine ⟨newGreAllocation i, ?_, rfl, rfl⟩
  refine List.mem_append_right _ ?_
  exact List.mem_map_of_mem _
    (List.mem_mergeSort.mpr (syncScan_fresh s _ i hi hfresh))

theorem sync_gre_unalloc_in_ids (rs : List (Int × Int))
    (s : List GreAllocation) :
    ∀ a ∈ _sync_gre_allocations rs s, a.allocated = false →
      a.gre_id ∈ tunnelIdsOf rs := by
  unfold _sync_gre_allocations
  intro a ha hun
  rcases List.mem_append.mp ha with h | h
  · exact syncScan_keep_unalloc s _ a h hun
  · obtain ⟨i, hi, rfl⟩ := List.mem_map.mp h
    exact syncScan_rem_sub s _ i (List.mem_mergeSort.mp hi)

theorem sync_gre_keeps_allocated (rs : List (Int × Int))
    (s : List GreAllocation) :
    ∀ a ∈ s, a.allocated = true → a ∈ _sync_gre_allocations rs s := by
  intro a ha halloc
  exact List.mem_append_left _ (syncScan_alloc_mem s _ a ha halloc)

theorem sync_gre_keeps_inrange (rs : List (Int × Int))
    (s : List GreAllocation)
    (hpw : List.Pairwise (fun x y => x.gre_id ≠ y.gre_id) s) :
    ∀ a ∈ s, a.gre_id ∈ tunnelIdsOf rs → a ∈ _sync_gre_allocations rs s := by
  intro a ha hin
  exact List.mem_append_left _
    (syncScan_mem_keep_of_mem_ids s _ hpw a ha hin)

theorem sync_gre_output_sub (rs : List (Int × Int)) (s : List GreAllocation) :
    ∀ a ∈ _sync_gre_allocations rs s,
      a ∈ s ∨ (a.allocated = false ∧ a.network_id = none) := by
  unfold _sync_gre_allocations
  intro a ha
  rcases List.mem_append.mp ha with h | h
  · exact Or.inl (syncScan_keep_sub s _ a h)
  · obtain ⟨i, _, rfl⟩ := List.mem_map.mp h
    exact Or.inr ⟨rfl, rfl⟩

theorem sync_gre_idempotent (rs : List (Int × Int)) (s : List GreAllocation) :
    _sync_gre_allocations rs (_sync_gre_allocations rs s) =
      _sync_gre_allocations rs s := by
  have hnd : (tunnelIdsOf rs).Nodup := nodup_tunnelIdsOf rs
  have hrem_nd : ((syncScan s (tunnelIdsOf rs)).2).Nodup :=
    syncScan_rem_nodup s _ hnd
  have hsort_perm := List.mergeSort_perm ((syncScan s (tunnelIdsOf rs)).2)
    (fun i j => decide (i ≤ j))
  have hsort_nd :
      (((syncScan s (tunnelIdsOf rs)).2).mergeSort
        (fun i j => decide (i ≤ j))).Nodup :=
    hsort_perm.symm.nodup hrem_nd
  have hscan_new := syncScan_new
    (((syncScan s (tunnelIdsOf rs)).2).mergeSort (fun i j => decide (i ≤ j)))
    ((syncScan s (tunnelIdsOf rs)).2)
    hsort_nd
    (fun i hi => List.mem_mergeSort.mp hi)
  have herase := foldl_erase_perm
    (((syncScan s (tunnelIdsOf rs)).2).mergeSort (fun i j => decide (i ≤ j)))
    ((syncScan s (tunnelIdsOf rs)).2) hsort_perm
  rw [herase] at hscan_new
  conv_lhs => rw [_sync_gre_allocations, _sync_gre_allocations,
    syncScan_append, syncScan_keep_scan, hscan_new]
  simp [_sync_gre_allocations, syncScan]

/-! ### Lemmas about the N1KV synchronizers and range deleters -/

theorem addMissingVlan_mono (pn : String) (st : List N1kvVlanAllocation)
    (vid : Int) : ∀ a ∈ st, a ∈ addMissingVlan pn st vid := by
  intro a ha
  unfold addMissingVlan
  split
  · exact ha
  · exact List.mem_append_left _ ha

theorem addMissingVlan_ensures (pn : String) (st : List N1kvVlanAllocation)
    (vid : Int) :
    ∃ a ∈ addMissingVlan pn st vid,
      a.physical_network = pn ∧ a.vlan_id = vid := by
  by_cases h : st.any
      (fun a => a.physical_network == pn && a.vlan_id == vid) = true
  · obtain ⟨a, ha, hp⟩ := List.any_eq_true.mp h
    rw [Bool.and_eq_true, beq_iff_eq, beq_iff_eq] at hp
    exact ⟨a, addMissingVlan_mono pn st vid a ha, hp.1, hp.2⟩
  · refine ⟨⟨pn, vid, false⟩, ?_, rfl, rfl⟩
    simp [addMissingVlan, h]

theorem addMissingVlan_noop (pn : String) (st : List N1kvVlanAllocation)
    (vid : Int)
    (h : st.any (fun a => a.physical_network == pn && a.vlan_id == vid) = true) :
    addMissingVlan pn st vid = st := by
  simp [addMissingVlan, h]

theorem addMissingVlan_sub (pn : String) (st : List N1kvVlanAllocation)
    (vid : Int) :
    ∀ a ∈ addMissingVlan pn st vid,
      a ∈ st ∨ (a.physical_network = pn ∧ a.vlan_id = vid ∧
        a.allocated = false) := by
  intro a ha
  unfold addMissingVlan at ha
  split at ha
  · exact Or.inl ha
  · rcases List.mem_append.mp ha with h | h
    · exact Or.inl h
    · rcases List.mem_singleton.mp h with rfl
      exact Or.inr ⟨rfl, rfl, rfl⟩

theorem foldVlan_mono (pn : String) (ids : List Int) :
    ∀ (st : List N1kvVlanAllocation), ∀ a ∈ st,
      a ∈ ids.foldl (addMissingVlan pn) st := by
  induction ids with
  | nil => intro st a ha; exact ha
  | cons i rest ih =>
    intro st a ha
    rw [List.foldl_cons]
    exact ih _ a (addMissingVlan_mono pn st i a ha)

theorem foldVlan_ensures (pn : String) (ids : List Int) :
    ∀ (st : List N1kvVlanAllocation), ∀ i ∈ ids,
      ∃ a ∈ ids.foldl (addMissingVlan pn) st,
        a.physical_network = pn ∧ a.vlan_id = i := by
  induction ids with
  | nil => intro st i hi; simp at hi
  | cons j rest ih =>
    intro st i hi
    rw [List.foldl_cons]
    rcases List.mem_cons.mp hi with rfl | hi
    · obtain ⟨a, ha, hp⟩ := addMissingVlan_ensures pn st i
      exact ⟨a, foldVlan_mono pn rest _ a ha, hp⟩
    · exact ih _ i hi

theorem foldVlan_noop (pn : String) (ids : List Int)
    (st : List N1kvVlanAllocation)
    (h : ∀ i ∈ ids,
      st.any (fun a => a.physical_network == pn && a.vlan_id == i) = true) :
    ids.foldl (addMissingVlan pn) st = st := by
  induction ids with
  | nil => rfl
  | cons j rest ih =>
    rw [List.foldl_cons, addMissingVlan_noop pn st j (h j (List.mem_cons_self _ _))]
    exact ih (fun i hi => h i (List.mem_cons_of_mem _ hi))

theorem foldVlan_sub (pn : String) (ids : List Int) :
    ∀ (st : List N1kvVlanAllocation), ∀ a ∈ ids.foldl (addMissingVlan pn) st,
      a ∈ st ∨ (a.physical_network = pn ∧ a.vlan_id ∈ ids ∧
        a.allocated = false) := by
  induction ids with
  | nil => intro st a ha; exact Or.inl ha
  | cons j rest ih =>
    intro st a ha
    rw [List.foldl_cons] at ha
    rcases ih _ a ha with h | ⟨h1, h2, h3⟩
    · rcases addMissingVlan_sub pn st j a h with h | ⟨h1, h2, h3⟩
      · exact Or.inl h
      · exact Or.inr ⟨h1, by simp [h2], h3⟩
    · exact Or.inr ⟨h1, by simp [h2], h3⟩

theorem sync_vlan_cons (e : String × List (Int × Int))
    (rest : List (String × List (Int × Int)))
    (s : List N1kvVlanAllocation) :
    sync_vlan_allocations (e :: rest) s =
      sync_vlan_allocations rest
        (((vlanIdsOf e.2).mergeSort (fun i j => decide (i ≤ j))).foldl
          (addMissingVlan e.1) s) := rfl

theorem sync_vlan_mono (cfg : List (String × List (Int × Int))) :
    ∀ (s : List N1kvVlanAllocation), ∀ a ∈ s,
      a ∈ sync_vlan_allocations cfg s := by
  induction cfg with
  | nil => intro s a ha; exact ha
  | cons e rest ih =>
    intro s a ha
    rw [sync_vlan_cons]
    exact ih _ a (foldVlan_mono e.1 _ s a ha)

theorem sync_vlan_complete (cfg : List (String × List (Int × Int))) :
    ∀ (s : List N1kvVlanAllocation), ∀ e ∈ cfg, ∀ i ∈ vlanIdsOf e.2,
      ∃ a ∈ sync_vlan_allocations cfg s,
        a.physical_network = e.1 ∧ a.vlan_id = i := by
  induction cfg with
  | nil => intro s e he; simp at he
  | cons e0 rest ih =>
    intro s e he i hi
    rw [sync_vlan_cons]
    rcases List.mem_cons.mp he with rfl | he
    · obtain ⟨a, ha, hp⟩ := foldVlan_ensures e.1
        ((vlanIdsOf e.2).mergeSort (fun i j => decide (i ≤ j))) s i
        (List.mem_mergeSort.mpr hi)
      exact ⟨a, sync_vlan_mono rest _ a ha, hp⟩
    · exact ih _ e he i hi

theorem any_of_exists_vlan (st : List N1kvVlanAllocation) (pn : String)
    (i : Int) (h : ∃ a ∈ st, a.physical_network = pn ∧ a.vlan_id = i) :
    st.any (fun a => a.physical_network == pn && a.vlan_id == i) = true := by
  obtain ⟨a, ha, h1, h2⟩ := h
  refine List.any_eq_true.mpr ⟨a, ha, ?_⟩
  rw [Bool.and_eq_true, beq_iff_eq, beq_iff_eq]
  exact ⟨h1, h2⟩

theorem sync_vlan_noop (cfg : List (String × List (Int × Int)))
    (st : List N1kvVlanAllocation)
    (h : ∀ e ∈ cfg, ∀ i ∈ vlanIdsOf e.2,
      st.any (fun a => a.physical_network == e.1 && a.vlan_id == i) = true) :
    sync_vlan_allocations cfg st = st := by
  induction cfg with
  | nil => rfl
  | cons e rest ih =>
    rw [sync_vlan_cons, foldVlan_noop e.1 _ st
      (fun i hi => h e (List.mem_cons_self _ _) i (List.mem_mergeSort.mp hi))]
    exact ih (fun e0 he0 i hi => h e0 (List.mem_cons_of_mem _ he0) i hi)

theorem sync_vlan_idempotent (cfg : List (String × List (Int × Int)))
    (s : List N1kvVlanAllocation) :
    sync_vlan_allocations cfg (sync_vlan_allocations cfg s) =
      sync_vlan_allocations cfg s := by
  apply sync_vlan_noop
  intro e he i hi
  exact any_of_exists_vlan _ _ _ (sync_vlan_complete cfg s e he i hi)

theorem addMissingVxlan_mono (st : List N1kvVxlanAllocation) (vid : Int) :
    ∀ a ∈ st, a ∈ addMissingVxlan st vid := by
  intro a ha
  unfold addMissingVxlan
  split
  · exact ha
  · exact List.mem_append_left _ ha

theorem addMissingVxlan_ensures (st : List N1kvVxlanAllocation) (vid : Int) :
    ∃ a ∈ addMissingVxlan st vid, a.vxlan_id = vid := by
  by_cases h : st.any (fun a => a.vxlan_id == vid) = true
  · obtain ⟨a, ha, hp⟩ := List.any_eq_true.mp h
    rw [beq_iff_eq] at hp
    exact ⟨a, addMissingVxlan_mono st vid a ha, hp⟩
  · refine ⟨⟨vid, false⟩, ?_, rfl⟩
    simp [addMissingVxlan, h]

theorem addMissingVxlan_sub (st : List N1kvVxlanAllocation) (vid : Int) :
    ∀ a ∈ addMissingVxlan st vid,
      a ∈ st ∨ (a.vxlan_id = vid ∧ a.allocated = false) := by
  intro a ha
  unfold addMissingVxlan at ha
  split at ha
  · exact Or.inl ha
  · rcases List.mem_append.mp ha with h | h
    · exact Or.inl h
    · rcases List.mem_singleton.mp h with rfl
      exact Or.inr ⟨rfl, rfl⟩

theorem foldVxlan_mono (ids : List Int) :
    ∀ (st : List N1kvVxlanAllocation), ∀ a ∈ st,
      a ∈ ids.foldl addMissingVxlan st := by
  induction ids with
  | nil => intro st a ha; exact ha
  | cons i rest ih =>
    intro st a ha
    rw [List.foldl_cons]
    exact ih _ a (addMissingVxlan_mono st i a ha)

theorem foldVxlan_ensures (ids : List Int) :
    ∀ (st : List N1kvVxlanAllocation), ∀ i ∈ ids,
      ∃ a ∈ ids.foldl addMissingVxlan st, a.vxlan_id = i := by
  induction ids with
  | nil => intro st i hi; simp at hi
  | cons j rest ih =>
    intro st i hi
    rw [List.foldl_cons]
    rcases List.mem_cons.mp hi with rfl | hi
    · obtain ⟨a, ha, hp⟩ := addMissingVxlan_ensures st i
      exact ⟨a, foldVxlan_mono rest _ a ha, hp⟩
    · exact ih _ i hi

theorem foldVxlan_sub (ids : List Int) :
    ∀ (st : List N1kvVxlanAllocation), ∀ a ∈ ids.foldl addMissingVxlan st,
      a ∈ st ∨ (a.vxlan_id ∈ ids ∧ a.allocated = false) := by
  induction ids with
  | nil => intro st a ha; exact Or.inl ha
  | cons j rest ih =>
    intro st a ha
    rw [List.foldl_cons] at ha
    rcases ih _ a ha with h | ⟨h1, h2⟩
    · rcases addMissingVxlan_sub st j a h with h | ⟨h1, h2⟩
      · exact Or.inl h
      · exact Or.inr ⟨by simp [h1], h2⟩
    · exact Or.inr ⟨by simp [h1], h2⟩

theorem sync_vxlan_mono (rs : List (Int × Int))
    (s : List N1kvVxlanAllocation) :
    ∀ a ∈ s, a ∈ sync_vxlan_allocations rs s := by
  intro a ha
  exact foldVxlan_mono _ s a ha

theorem sync_vxlan_complete (rs : List (Int × Int))
    (s : List N1kvVxlanAllocation) (i : Int) (hi : i ∈ tunnelIdsOf rs) :
    ∃ a ∈ sync_vxlan_allocations rs s, a.vxlan_id = i := by
  exact foldVxlan_ensures _ s i (List.mem_mergeSort.mpr hi)

theorem sync_vxlan_sub (rs : List (Int × Int))
    (s : List N1kvVxlanAllocation) :
    ∀ a ∈ sync_vxlan_allocations rs s,
      a ∈ s ∨ (a.vxlan_id ∈ tunnelIdsOf rs ∧ a.allocated = false) := by
  intro a ha
  rcases foldVxlan_sub _ s a ha with h | ⟨h1, h2⟩
  · exact Or.inl h
  · exact Or.inr ⟨List.mem_mergeSort.mp h1, h2⟩

theorem delete_vlan_cons (e : String × List (Int × Int))
    (rest : List (String × List (Int × Int)))
    (st : List N1kvVlanAllocation) :
    delete_vlan_allocations (e :: rest) st =
      delete_vlan_allocations rest
        (st.filter (fun a =>
          !(a.physical_network == e.1 &&
            decide (a.vlan_id ∈ vlanIdsOf e.2) && !a.allocated))) := rfl

theorem delete_vlan_keeps_allocated
    (cfg : List (String × List (Int × Int))) :
    ∀ (st : List N1kvVlanAllocation), ∀ a ∈ st, a.allocated = true →
      a ∈ delete_vlan_allocations cfg st := by
  induction cfg with
  | nil => intro st a ha _; exact ha
  | cons e rest ih =>
    intro st a ha halloc
    rw [delete_vlan_cons]
    refine ih _ a ?_ halloc
    refine List.mem_filter.mpr ⟨ha, ?_⟩
    simp [halloc]

theorem delete_vxlan_keeps_allocated (rs : List (Int × Int))
    (st : List N1kvVxlanAllocation) :
    ∀ a ∈ st, a.allocated = true → a ∈ delete_vxlan_allocations rs st := by
  intro a ha halloc
  refine List.mem_filter.mpr ⟨ha, ?_⟩
  simp [halloc]

/-! ### Lemmas about the endpoint registries -/

theorem foldl_max_init (xs : List Int) : ∀ x : Int, x ≤ xs.foldl max x := by
  induction xs with
  | nil => intro x; exact le_refl x
  | cons y ys ih =>
    intro x
    rw [List.foldl_cons]
    exact le_trans (le_max_left x y) (ih (max x y))

theorem foldl_max_mem (xs : List Int) :
    ∀ x : Int, ∀ j ∈ xs, j ≤ xs.foldl max x := by
  induction xs with
  | nil => intro x j hj; simp at hj
  | cons y ys ih =>
    intro x j hj
    rw [List.foldl_cons]
    rcases List.mem_cons.mp hj with rfl | hj
    · exact le_trans (le_max_right x j) (foldl_max_init ys (max x j))
    · exact ih (max x y) j hj

theorem generate_vxlan_id_gt (s : List N1kvVxlanEndpoint) :
    ∀ v ∈ s, v.id < _generate_vxlan_id s := by
  intro v hv
  cases hm : s.map (fun v => v.id) with
  | nil =>
    exact absurd (List.mem_map_of_mem (fun v => v.id) hv) (by rw [hm]; simp)
  | cons x xs =>
    have hred : _generate_vxlan_id s = xs.foldl max x + 1 := by
      unfold _generate_vxlan_id
      rw [hm]
    rw [hred]
    have hmem : v.id ∈ x :: xs := by
      rw [← hm]; exact List.mem_map_of_mem _ hv
    rcases List.mem_cons.mp hmem with h | h
    · rw [h]
      have := foldl_max_init xs x
      omega
    · have := foldl_max_mem xs x v.id h
      omega

/-! ### Claim theorems -/

/-- C1: the claim says a release of a present record sets allocated to
false and then deletes the record when its id lies outside every
configured range.  The N1KV implementations violate the deletion half: at
this failing input release_vlan finds the allocated record
(physnet1, 20), the only configured range for physnet1 is (10, 15), yet
the result store still contains the record, merely flipped to
unallocated; release_vxlan behaves the same way.  The GRE sibling
release_static_segment does delete, so the code contradicts the
spec-stated intent only in the N1KV layer. -/
theorem c1_release_keeps_out_of_range_record :
    release_vlan [⟨"physnet1", 20, true⟩] "physnet1" 20
        [("physnet1", [(10, 15)])] =
      .ok [⟨"physnet1", 20, false⟩] ∧
    release_vxlan [⟨5001, true⟩] 5001 [(5100, 5200)] =
      .ok [⟨5001, false⟩] := by
  exact ⟨rfl, rfl⟩

/-- C5: both synchronizers are idempotent — re-running either the GRE
synchronizer or the N1KV VLAN synchronizer with the same configuration
immediately after a first run returns the store of the first run
unchanged, for every store and every range configuration. -/
theorem c5_sync_idempotent (rs : List (Int × Int)) (s : List GreAllocation)
    (cfg : List (String × List (Int × Int)))
    (sv : List N1kvVlanAllocation) :
    _sync_gre_allocations rs (_sync_gre_allocations rs s) =
      _sync_gre_allocations rs s ∧
    sync_vlan_allocations cfg (sync_vlan_allocations cfg sv) =
      sync_vlan_allocations cfg sv :=
  ⟨sync_gre_idempotent rs s, sync_vlan_idempotent cfg sv⟩

/-- C6: the claim says a release whose key has no record is a clean
no-op.  The N1KV releases are (release_vlan and release_vxlan on an empty
store return the store unchanged without error), but the GRE
release_static_segment dies with UnboundLocalError: its except-handler
logs the local variable gre_id, which is only assigned after the failed
lookup, so a release for an unknown network crashes instead of warning. -/
theorem c6_release_absent_crashes :
    release_static_segment [] "net1" [(10, 15)] =
      .error .unboundLocalError ∧
    release_static_segment [⟨7, true, some "other", false⟩] "net1" [] =
      .error .unboundLocalError ∧
    release_vlan [] "p" 7 [] = .ok [] ∧
    release_vxlan [] 7 [] = .ok [] := by
  exact ⟨rfl, rfl, rfl, rfl⟩

/-- C2: reserve_specific semantics for both cited implementations
(reserve_provider_segment for GRE, reserve_specific_vlan for N1KV): an
absent id is created directly in the allocated state and the call
succeeds; a present unallocated id is flipped to allocated; a present
allocated id fails with the id-in-use error (TunnelIdInUse, or the N1KV
flavours), and since the raised exception aborts the enclosing
transaction the store is left unchanged (an error result carries no
store); the returned segmentation id is always exactly the requested
one. -/
theorem c2_reserve_specific_spec (s : List GreAllocation) (net : String)
    (i : Int) (flat : Int) (sv : List N1kvVlanAllocation) (pn : String)
    (v : Int) :
    (s.filter (fun b => b.gre_id == i) = [] →
      reserve_provider_segment s net i =
        .ok (s ++ [⟨i, true, none, true⟩], i)) ∧
    (∀ a, s.filter (fun b => b.gre_id == i) = [a] → a.allocated = false →
      reserve_provider_segment s net i =
        .ok (updateFirst (fun b => b.gre_id == i)
          (fun b =>
            { b with
              allocated := true
              network_id := some net
              provider_network := true }) s, i)) ∧
    (∀ a, s.filter (fun b => b.gre_id == i) = [a] → a.allocated = true →
      reserve_provider_segment s net i = .error (.tunnelIdInUse i)) ∧
    (sv.filter (fun b => b.physical_network == pn && b.vlan_id == v) = [] →
      reserve_specific_vlan flat sv pn v = .ok (sv ++ [⟨pn, v, true⟩])) ∧
    (∀ a,
      sv.filter (fun b => b.physical_network == pn && b.vlan_id == v) = [a] →
      a.allocated = false →
      reserve_specific_vlan flat sv pn v =
        .ok (updateFirst
          (fun b => b.physical_network == pn && b.vlan_id == v)
          (fun b => { b with allocated := true }) sv)) ∧
    (∀ a,
      sv.filter (fun b => b.physical_network == pn && b.vlan_id == v) = [a] →
      a.allocated = true →
      reserve_specific_vlan flat sv pn v =
        .error (if v = flat then .flatNetworkInUse pn
                else .vlanIdInUse v pn)) := by
  refine ⟨?_, ?_, ?_, ?_, ?_, ?_⟩
  · intro hf
    unfold reserve_provider_segment
    rw [hf]
    rfl
  · intro a hf hun
    have hid : a.gre_id = i := by
      have hmem : a ∈ s.filter (fun b => b.gre_id == i) := by rw [hf]; simp
      simpa [beq_iff_eq] using (List.mem_filter.mp hmem).2
    unfold reserve_provider_segment
    rw [hf]
    simp [oneResult, hun, hid]
  · intro a hf hal
    unfold reserve_provider_segment
    rw [hf]
    simp [oneResult, hal]
  · intro hf
    unfold reserve_specific_vlan
    rw [hf]
    rfl
  · intro a hf hun
    unfold reserve_specific_vlan
    rw [hf]
    simp [oneResult, hun]
  · intro a hf hal
    unfold reserve_specific_vlan
    rw [hf]
    by_cases h : v = flat
    · simp [oneResult, hal, h]
    · simp [oneResult, hal, h]

/-- C2 witness: the allocated case fails with TunnelIdInUse at a concrete
store, and the present-unallocated case flips the concrete record. -/
theorem c2_witness :
    reserve_provider_segment [⟨7, true, none, false⟩] "n" 7 =
      .error (.tunnelIdInUse 7) ∧
    reserve_specific_vlan (-1) [⟨"p", 9, false⟩] "p" 9 =
      .ok [⟨"p", 9, true⟩] := by
  constructor
  · exact (c2_reserve_specific_spec [⟨7, true, none, false⟩] "n" 7 (-1)
      [] "p" 9).2.2.1 ⟨7, true, none, false⟩ rfl rfl
  · exact ((c2_reserve_specific_spec [] "n" 7 (-1) [⟨"p", 9, false⟩] "p"
      9).2.2.2.2.1 ⟨"p", 9, false⟩ rfl rfl).trans rfl

/-- C3 counterexample: the claim requires every dynamic allocation to
fail with a pool-exhausted error when no free record exists, but the GRE
dynamic allocator allocate_tenant_segment simply falls through: on an
empty table, and on a table whose only record is allocated, it returns
the store unchanged with no segment and no error (and it accepts no
min/max bounds at all). -/
theorem c3_counterexample :
    allocate_tenant_segment [] "net1" = ([], none) ∧
    allocate_tenant_segment [⟨7, true, some "n0", false⟩] "net1" =
      ([⟨7, true, some "n0", false⟩], none) := ⟨rfl, rfl⟩

/-- C3 amended: the bounded dynamic allocators reserve_vlan and
reserve_vxlan select the first unallocated record with min ≤ id ≤ max,
flip exactly that record to allocated and return its id (which is in
range and was unallocated immediately before), and raise
NoNetworkAvailable when no such record exists; they attach no owner
reference (only the allocated flag is written).  The GRE
allocate_tenant_segment attaches the owner network id but takes no
bounds, and on exhaustion returns no segment and no error rather than a
pool-exhausted failure. -/
theorem c3_dynamic_allocation_amended (s : List N1kvVlanAllocation)
    (mn mx : Int) :
    ((∃ a ∈ s, a.allocated = false ∧ mn ≤ a.vlan_id ∧ a.vlan_id ≤ mx) →
      ∃ b s₁ s₂, s = s₁ ++ b :: s₂ ∧ b.allocated = false ∧
        mn ≤ b.vlan_id ∧ b.vlan_id ≤ mx ∧
        reserve_vlan s mn mx =
          .ok (s₁ ++ { b with allocated := true } :: s₂,
               b.physical_network, b.vlan_id)) ∧
    ((∀ a ∈ s, a.allocated = false → ¬(mn ≤ a.vlan_id ∧ a.vlan_id ≤ mx)) →
      reserve_vlan s mn mx = .error .noNetworkAvailable) ∧
    (∀ (sx : List N1kvVxlanAllocation),
      (∃ a ∈ sx, a.allocated = false ∧ mn ≤ a.vxlan_id ∧ a.vxlan_id ≤ mx) →
      ∃ b s₁ s₂, sx = s₁ ++ b :: s₂ ∧ b.allocated = false ∧
        mn ≤ b.vxlan_id ∧ b.vxlan_id ≤ mx ∧
        reserve_vxlan sx mn mx =
          .ok (s₁ ++ { b with allocated := true } :: s₂, b.vxlan_id)) ∧
    (∀ (sx : List N1kvVxlanAllocation),
      (∀ a ∈ sx, a.allocated = false →
        ¬(mn ≤ a.vxlan_id ∧ a.vxlan_id ≤ mx)) →
      reserve_vxlan sx mn mx = .error .noNetworkAvailable) ∧
    (∀ (g : List GreAllocation) (net : String),
      (∃ a ∈ g, a.allocated = false) →
      ∃ b g₁ g₂, g = g₁ ++ b :: g₂ ∧ b.allocated = false ∧
        allocate_tenant_segment g net =
          (g₁ ++
             { b with
               allocated := true
               network_id := some net } :: g₂,
           some b.gre_id)) ∧
    (∀ (g : List GreAllocation) (net : String),
      (∀ a ∈ g, a.allocated = true) →
      allocate_tenant_segment g net = (g, none)) := by
  refine ⟨?_, ?_, ?_, ?_, ?_, ?_⟩
  · intro h
    obtain ⟨a, ha, h1, h2, h3⟩ := h
    have hpa : (decide (mn ≤ a.vlan_id) && decide (a.vlan_id ≤ mx) &&
        a.allocated == false) = true := by
      simp [h1, h2, h3]
    cases hfil : (s.filter (fun a =>
        decide (mn ≤ a.vlan_id) && decide (a.vlan_id ≤ mx) &&
        a.allocated == false)).head? with
    | none =>
      rw [List.head?_eq_none_iff] at hfil
      have : a ∈ s.filter (fun a =>
          decide (mn ≤ a.vlan_id) && decide (a.vlan_id ≤ mx) &&
          a.allocated == false) := List.mem_filter.mpr ⟨ha, hpa⟩
      rw [hfil] at this
      simp at this
    | some c =>
      obtain ⟨s₁, s₂, hs, hleft, hc⟩ := head_filter_split hfil
      have hc2 := hc
      rw [Bool.and_eq_true, Bool.and_eq_true, beq_iff_eq,
        decide_eq_true_eq, decide_eq_true_eq] at hc2
      refine ⟨c, s₁, s₂, hs, hc2.2, hc2.1.1, hc2.1.2, ?_⟩
      unfold reserve_vlan
      rw [hfil]
      rw [hs, updateFirst_append _ _ s₁ c s₂ hleft hc]
  · intro h
    have hfil : s.filter (fun a =>
        decide (mn ≤ a.vlan_id) && decide (a.vlan_id ≤ mx) &&
        a.allocated == false) = [] := by
      rw [List.filter_eq_nil_iff]
      intro a ha
      intro hpa
      rw [Bool.and_eq_true, Bool.and_eq_true, beq_iff_eq,
        decide_eq_true_eq, decide_eq_true_eq] at hpa
      exact h a ha hpa.2 ⟨hpa.1.1, hpa.1.2⟩
    unfold reserve_vlan
    rw [hfil]
    rfl
  · intro sx h
    obtain ⟨a, ha, h1, h2, h3⟩ := h
    have hpa : (decide (mn ≤ a.vxlan_id) && decide (a.vxlan_id ≤ mx) &&
        a.allocated == false) = true := by
      simp [h1, h2, h3]
    cases hfil : (sx.filter (fun a =>
        decide (mn ≤ a.vxlan_id) && decide (a.vxlan_id ≤ mx) &&
        a.allocated == false)).head? with
    | none =>
      rw [List.head?_eq_none_iff] at hfil
      have hmem : a ∈ sx.filter (fun a =>
          decide (mn ≤ a.vxlan_id) && decide (a.vxlan_id ≤ mx) &&
          a.allocated == false) := List.mem_filter.mpr ⟨ha, hpa⟩
      rw [hfil] at hmem
      simp at hmem
    | some c =>
      obtain ⟨s₁, s₂, hs, hleft, hc⟩ := head_filter_split hfil
      have hc2 := hc
      rw [Bool.and_eq_true, Bool.and_eq_true, beq_iff_eq,
        decide_eq_true_eq, decide_eq_true_eq] at hc2
      refine ⟨c, s₁, s₂, hs, hc2.2, hc2.1.1, hc2.1.2, ?_⟩
      unfold reserve_vxlan
      rw [hfil]
      rw [hs, updateFirst_append _ _ s₁ c s₂ hleft hc]
  · intro sx h
    have hfil : sx.filter (fun a =>
        decide (mn ≤ a.vxlan_id) && decide (a.vxlan_id ≤ mx) &&
        a.allocated == false) = [] := by
      rw [List.filter_eq_nil_iff]
      intro a ha
      intro hpa
      rw [Bool.and_eq_true, Bool.and_eq_true, beq_iff_eq,
        decide_eq_true_eq, decide_eq_true_eq] at hpa
      exact h a ha hpa.2 ⟨hpa.1.1, hpa.1.2⟩
    unfold reserve_vxlan
    rw [hfil]
    rfl
  · intro g net h
    obtain ⟨a, ha, h1⟩ := h
    have hpa : (a.allocated == false) = true := by simp [h1]
    cases hfil : (g.filter (fun a => a.allocated == false)).head? with
    | none =>
      rw [List.head?_eq_none_iff] at hfil
      have hmem : a ∈ g.filter (fun a => a.allocated == false) :=
        List.mem_filter.mpr ⟨ha, hpa⟩
      rw [hfil] at hmem
      simp at hmem
    | some c =>
      obtain ⟨g₁, g₂, hs, hleft, hc⟩ := head_filter_split hfil
      have hc2 : c.allocated = false := by simpa using hc
      refine ⟨c, g₁, g₂, hs, hc2, ?_⟩
      unfold allocate_tenant_segment
      rw [hfil]
      rw [hs, updateFirst_append _ _ g₁ c g₂ hleft hc]
  · intro g net h
    have hfil : g.filter (fun a => a.allocated == false) = [] := by
      rw [List.filter_eq_nil_iff]
      intro a ha hpa
      rw [beq_iff_eq] at hpa
      rw [h a ha] at hpa
      cases hpa
    unfold allocate_tenant_segment
    rw [hfil]
    rfl

/-- C3 witness: on a one-record pool with range (5, 5) the free record is
selected and flipped, and on an exhausted pool NoNetworkAvailable is
raised. -/
theorem c3_witness :
    (∃ b s₁ s₂, ([⟨"p", 5, false⟩] : List N1kvVlanAllocation) =
        s₁ ++ b :: s₂ ∧ b.allocated = false ∧ 5 ≤ b.vlan_id ∧
        b.vlan_id ≤ 5 ∧
        reserve_vlan [⟨"p", 5, false⟩] 5 5 =
          .ok (s₁ ++ { b with allocated := true } :: s₂,
               b.physical_network, b.vlan_id)) ∧
    reserve_vlan [⟨"p", 6, true⟩] 5 5 = .error .noNetworkAvailable := by
  constructor
  · exact (c3_dynamic_allocation_amended [⟨"p", 5, false⟩] 5 5).1
      (by decide)
  · exact (c3_dynamic_allocation_amended [⟨"p", 6, true⟩] 5 5).2.1
      (by decide)

/-- C4 counterexample: the claim says that after synchronize no
unallocated record exists outside the configured ranges.  Running
sync_vlan_allocations for physical network p with the single range
(10, 12) over a store holding the unallocated out-of-range record
(p, 50) leaves that record in the store: the N1KV synchronizer never
deletes anything. -/
theorem c4_counterexample :
    (⟨"p", 50, false⟩ : N1kvVlanAllocation) ∈
      sync_vlan_allocations [("p", [(10, 12)])] [⟨"p", 50, false⟩] ∧
    ∀ r ∈ [((10 : Int), (12 : Int))], ¬(r.1 ≤ 50 ∧ (50 : Int) ≤ r.2) := by
  constructor
  · exact sync_vlan_mono _ _ _ (by simp)
  · decide

/-- C4 amended: after the GRE synchronizer, every id inside a configured
range of cardinality at most 1,000,000 has a record (a fresh unallocated
one when the id had no record before; records already present are kept
as they were — allocated ones always, in-range ones whenever the store's
gre_id keys are unique, as the primary key guarantees), and every
unallocated GRE record lies inside such a range (out-of-range
unallocated records are deleted).  The N1KV VLAN and VXLAN
synchronizers guarantee only the completeness half: every configured id
gets a record, but nothing is ever deleted, so out-of-range unallocated
records survive (their purge is the separate
delete_vlan_allocations/delete_vxlan_allocations path). -/
theorem c4_sync_amended (rs rsx : List (Int × Int))
    (s : List GreAllocation) (cfg : List (String × List (Int × Int)))
    (sv : List N1kvVlanAllocation) (sx : List N1kvVxlanAllocation) :
    (∀ i : Int, (∃ r ∈ rs, r.1 ≤ i ∧ i ≤ r.2 ∧ r.2 + 1 - r.1 ≤ 1000000) →
      ∃ a ∈ _sync_gre_allocations rs s, a.gre_id = i) ∧
    (∀ i : Int, (∃ r ∈ rs, r.1 ≤ i ∧ i ≤ r.2 ∧ r.2 + 1 - r.1 ≤ 1000000) →
      (∀ a ∈ s, a.gre_id ≠ i) →
      ∃ a ∈ _sync_gre_allocations rs s, a.gre_id = i ∧
        a.allocated = false) ∧
    (∀ a ∈ _sync_gre_allocations rs s, a.allocated = false →
      ∃ r ∈ rs, r.1 ≤ a.gre_id ∧ a.gre_id ≤ r.2 ∧
        r.2 + 1 - r.1 ≤ 1000000) ∧
    (∀ a ∈ s, a.allocated = true → a ∈ _sync_gre_allocations rs s) ∧
    (List.Pairwise (fun x y => x.gre_id ≠ y.gre_id) s →
      ∀ a ∈ s, (∃ r ∈ rs, r.1 ≤ a.gre_id ∧ a.gre_id ≤ r.2 ∧
        r.2 + 1 - r.1 ≤ 1000000) →
      a ∈ _sync_gre_allocations rs s) ∧
    (∀ e ∈ cfg, ∀ i : Int, (∃ r ∈ e.2, r.1 ≤ i ∧ i ≤ r.2) →
      ∃ a ∈ sync_vlan_allocations cfg sv,
        a.physical_network = e.1 ∧ a.vlan_id = i) ∧
    (∀ a ∈ sv, a ∈ sync_vlan_allocations cfg sv) ∧
    (∀ i : Int,
      (∃ r ∈ rsx, r.1 ≤ i ∧ i ≤ r.2 ∧ r.2 + 1 - r.1 ≤ 1000000) →
      ∃ a ∈ sync_vxlan_allocations rsx sx, a.vxlan_id = i) ∧
    (∀ a ∈ sx, a ∈ sync_vxlan_allocations rsx sx) := by
  refine ⟨?_, ?_, ?_, ?_, ?_, ?_, ?_, ?_, ?_⟩
  · intro i hi
    exact sync_gre_mem_of_ids rs s i (mem_tunnelIdsOf.mpr hi)
  · intro i hi hfresh
    exact sync_gre_fresh_unalloc rs s i (mem_tunnelIdsOf.mpr hi) hfresh
  · intro a ha hun
    exact mem_tunnelIdsOf.mp (sync_gre_unalloc_in_ids rs s a ha hun)
  · exact sync_gre_keeps_allocated rs s
  · intro hpw a ha hin
    exact sync_gre_keeps_inrange rs s hpw a ha (mem_tunnelIdsOf.mpr hin)
  · intro e he i hi
    exact sync_vlan_complete cfg sv e he i (mem_vlanIdsOf.mpr hi)
  · exact sync_vlan_mono cfg sv
  · intro i hi
    exact sync_vxlan_complete rsx sx i (mem_tunnelIdsOf.mpr hi)
  · exact sync_vxlan_mono rsx sx

/-- C4 witness: a fresh in-range GRE id gets a record, a configured VLAN
id gets a record for its physical network, and a configured VXLAN id
gets a record. -/
theorem c4_witness :
    (∃ a ∈ _sync_gre_allocations [(10, 12)] [], a.gre_id = 11 ∧
      a.allocated = false) ∧
    (∃ a ∈ sync_vlan_allocations [("p", [(10, 12)])] [],
      a.physical_network = "p" ∧ a.vlan_id = 10) ∧
    (∃ a ∈ sync_vxlan_allocations [(100, 102)] [], a.vxlan_id = 101) := by
  refine ⟨?_, ?_, ?_⟩
  · exact (c4_sync_amended [(10, 12)] [] [] [] [] []).2.1 11 (by decide)
      (by simp)
  · exact (c4_sync_amended [(10, 12)] [] [] [("p", [(10, 12)])] []
      []).2.2.2.2.2.1 ("p", [(10, 12)]) (by simp) 10 (by decide)
  · exact (c4_sync_amended [] [(100, 102)] [] [] []
      []).2.2.2.2.2.2.2.1 101 (by decide)

/-- C7 counterexample: the claim says every configured range with more
than 1,000,000 ids is skipped and contributes no records.  The N1KV
VLAN synchronizer applies no such ceiling: the single range
(1, 1500000) has cardinality 1,500,000, yet after
sync_vlan_allocations over the empty store the id 5 from that range has
a record. -/
theorem c7_counterexample :
    ((1500000 : Int) + 1 - 1 > 1000000) ∧
    ∃ a ∈ sync_vlan_allocations [("p", [(1, 1500000)])] [],
      a.physical_network = "p" ∧ a.vlan_id = 5 := by
  constructor
  · norm_num
  · exact sync_vlan_complete _ _ ("p", [(1, 1500000)]) (by simp) 5
      (mem_vlanIdsOf.mpr ⟨(1, 1500000), by simp, by norm_num⟩)

/-- C7 amended: the GRE and VXLAN synchronizers skip every range whose
cardinality max + 1 - min exceeds 1,000,000: an id covered only by
oversized ranges gains no record (any record carrying it was already in
the store), while ids of the remaining valid ranges are still
materialized; an oversized range is never fatal (both synchronizers are
total functions).  The VLAN synchronizer applies no ceiling. -/
theorem c7_oversized_range_amended (rs rsx : List (Int × Int))
    (s : List GreAllocation) (sx : List N1kvVxlanAllocation) (i j : Int) :
    ((∀ r ∈ rs, r.1 ≤ i → i ≤ r.2 → r.2 + 1 - r.1 > 1000000) →
      ∀ a ∈ _sync_gre_allocations rs s, a.gre_id = i → a ∈ s) ∧
    ((∃ r ∈ rs, r.1 ≤ i ∧ i ≤ r.2 ∧ r.2 + 1 - r.1 ≤ 1000000) →
      ∃ a ∈ _sync_gre_allocations rs s, a.gre_id = i) ∧
    ((∀ r ∈ rsx, r.1 ≤ j → j ≤ r.2 → r.2 + 1 - r.1 > 1000000) →
      ∀ a ∈ sync_vxlan_allocations rsx sx, a.vxlan_id = j → a ∈ sx) ∧
    ((∃ r ∈ rsx, r.1 ≤ j ∧ j ≤ r.2 ∧ r.2 + 1 - r.1 ≤ 1000000) →
      ∃ a ∈ sync_vxlan_allocations rsx sx, a.vxlan_id = j) := by
  have hnot : (∀ r ∈ rs, r.1 ≤ i → i ≤ r.2 → r.2 + 1 - r.1 > 1000000) →
      i ∉ tunnelIdsOf rs := by
    intro hover hmem
    obtain ⟨r, hr, h1, h2, h3⟩ := mem_tunnelIdsOf.mp hmem
    have := hover r hr h1 h2
    omega
  refine ⟨?_, ?_, ?_, ?_⟩
  · intro hover a ha hid
    unfold _sync_gre_allocations at ha
    rcases List.mem_append.mp ha with h | h
    · exact syncScan_keep_sub s _ a h
    · obtain ⟨i0, hi0, rfl⟩ := List.mem_map.mp h
      have : i0 ∈ tunnelIdsOf rs :=
        syncScan_rem_sub s _ i0 (List.mem_mergeSort.mp hi0)
      rw [show (newGreAllocation i0).gre_id = i0 from rfl] at hid
      rw [hid] at this
      exact absurd this (hnot hover)
  · intro hi
    exact sync_gre_mem_of_ids rs s i (mem_tunnelIdsOf.mpr hi)
  · intro hover a ha hid
    rcases sync_vxlan_sub rsx sx a ha with h | ⟨h1, _⟩
    · exact h
    · rw [hid] at h1
      obtain ⟨r, hr, hh1, hh2, hh3⟩ := mem_tunnelIdsOf.mp h1
      have := hover r hr hh1 hh2
      omega
  · intro hj
    exact sync_vxlan_complete rsx sx j (mem_tunnelIdsOf.mpr hj)

/-- C7 witness: the oversized GRE range (0, 2000000) contributes no
record for id 5 beyond the one already in the store, while the valid
VXLAN range (100, 102) is still materialized. -/
theorem c7_witness :
    (∀ a ∈ _sync_gre_allocations [(0, 2000000)]
        [⟨5, true, some "n", false⟩],
      a.gre_id = 5 → a ∈ [⟨5, true, some "n", false⟩]) ∧
    (∃ a ∈ sync_vxlan_allocations [(100, 102)] [], a.vxlan_id = 101) := by
  constructor
  · exact (c7_oversized_range_amended [(0, 2000000)] []
      [⟨5, true, some "n", false⟩] [] 5 0).1 (by decide)
  · exact (c7_oversized_range_amended [] [(100, 102)] [] [] 0 101).2.2.2
      (by decide)

/-- C8: an allocated record is never deleted by the GRE synchronizer or
by either range-deletion operation, for every store state and every
range configuration — each of the three cited operations keeps every
allocated = true record in the store (only unallocated records are ever
removed, which is exactly what a prior release produces). -/
theorem c8_allocated_never_deleted (rs rsx : List (Int × Int))
    (s : List GreAllocation) (cfg : List (String × List (Int × Int)))
    (sv : List N1kvVlanAllocation) (sx : List N1kvVxlanAllocation) :
    (∀ a ∈ s, a.allocated = true → a ∈ _sync_gre_allocations rs s) ∧
    (∀ a ∈ sv, a.allocated = true → a ∈ delete_vlan_allocations cfg sv) ∧
    (∀ a ∈ sx, a.allocated = true → a ∈ delete_vxlan_allocations rsx sx) :=
  ⟨sync_gre_keeps_allocated rs s, delete_vlan_keeps_allocated cfg sv,
   delete_vxlan_keeps_allocated rsx sx⟩

/-- C8 witness: concrete allocated records survive the GRE synchronizer
(shrunk to a range excluding them) and both range deleters (with ranges
covering them). -/
theorem c8_witness :
    (⟨20, true, some "n", false⟩ : GreAllocation) ∈
      _sync_gre_allocations [(1, 5)] [⟨20, true, some "n", false⟩] ∧
    (⟨"p", 3, true⟩ : N1kvVlanAllocation) ∈
      delete_vlan_allocations [("p", [(1, 5)])] [⟨"p", 3, true⟩] ∧
    (⟨3, true⟩ : N1kvVxlanAllocation) ∈
      delete_vxlan_allocations [(1, 5)] [⟨3, true⟩] := by
  refine ⟨?_, ?_, ?_⟩
  · exact (c8_allocated_never_deleted [(1, 5)] [] [⟨20, true, some "n",
      false⟩] [] [] []).1 _ (by simp) rfl
  · exact (c8_allocated_never_deleted [] [] [] [("p", [(1, 5)])]
      [⟨"p", 3, true⟩] []).2.1 _ (by simp) rfl
  · exact (c8_allocated_never_deleted [] [(1, 5)] [] [] []
      [⟨3, true⟩]).2.2 _ (by simp) rfl

/-- C9 counterexample: the claim says every insertion of an absent ip
yields a record carrying a fresh auto-incrementing local id, but the
cited GRE add_endpoint inserts into ml2_gre_endpoints, whose rows are
exactly an ip_address primary key (structure GreEndpoints, mirroring
type_gre.py lines 58 to 62): the records inserted here consist of the
ip alone, so no local id — auto-incrementing or otherwise — exists on
them. -/
theorem c9_counterexample :
    add_endpoint [] "10.0.0.1" =
      .ok ([{ ip_address := "10.0.0.1" }], { ip_address := "10.0.0.1" }) ∧
    add_endpoint [⟨"10.0.0.1"⟩] "10.0.0.2" =
      .ok ([⟨"10.0.0.1"⟩, ⟨"10.0.0.2"⟩], ⟨"10.0.0.2"⟩) := ⟨rfl, rfl⟩

/-- C9 amended: both endpoint registries deduplicate by ip — adding a
present ip returns the existing row and leaves the table unchanged (so
a second add of the same ip equals the first), and adding an absent ip
appends exactly one new row.  Only the N1KV VXLAN registry stamps the
new row with the auto-incrementing local id 1 + max existing id, which
is strictly greater than (hence distinct from) every existing id; the
GRE endpoint table is keyed by ip alone and carries no local id. -/
theorem c9_endpoint_add_spec (s : List GreEndpoints) (ip : String)
    (sx : List N1kvVxlanEndpoint) (ipx : String) :
    (∀ e, s.filter (fun b => b.ip_address == ip) = [e] →
      add_endpoint s ip = .ok (s, e)) ∧
    (s.filter (fun b => b.ip_address == ip) = [] →
      add_endpoint s ip = .ok (s ++ [⟨ip⟩], ⟨ip⟩) ∧
      add_endpoint (s ++ [⟨ip⟩]) ip = .ok (s ++ [⟨ip⟩], ⟨ip⟩)) ∧
    (∀ v, sx.filter (fun b => b.ip_address == ipx) = [v] →
      add_vxlan_endpoint sx ipx = .ok (sx, v)) ∧
    (sx.filter (fun b => b.ip_address == ipx) = [] →
      add_vxlan_endpoint sx ipx =
        .ok (sx ++ [⟨_generate_vxlan_id sx, ipx⟩],
             ⟨_generate_vxlan_id sx, ipx⟩) ∧
      (∀ v ∈ sx, v.id < _generate_vxlan_id sx) ∧
      add_vxlan_endpoint (sx ++ [⟨_generate_vxlan_id sx, ipx⟩]) ipx =
        .ok (sx ++ [⟨_generate_vxlan_id sx, ipx⟩],
             ⟨_generate_vxlan_id sx, ipx⟩)) := by
  refine ⟨?_, ?_, ?_, ?_⟩
  · intro e hf
    unfold add_endpoint
    rw [hf]
    rfl
  · intro hf
    refine ⟨?_, ?_⟩
    · unfold add_endpoint
      rw [hf]
      rfl
    · unfold add_endpoint
      rw [List.filter_append, hf]
      simp [oneResult]
  · intro v hf
    unfold add_vxlan_endpoint
    rw [hf]
    rfl
  · intro hf
    refine ⟨?_, generate_vxlan_id_gt sx, ?_⟩
    · unfold add_vxlan_endpoint
      rw [hf]
      rfl
    · unfold add_vxlan_endpoint
      rw [List.filter_append, hf]
      simp [oneResult]

/-- C9 witness: re-adding a present GRE endpoint ip leaves the table
unchanged, and adding a fresh VXLAN endpoint ip appends one row with
the next local id 2 = 1 + max existing id. -/
theorem c9_witness :
    add_endpoint [⟨"10.0.0.1"⟩] "10.0.0.1" =
      .ok ([⟨"10.0.0.1"⟩], ⟨"10.0.0.1"⟩) ∧
    add_vxlan_endpoint [⟨1, "10.0.0.1"⟩] "10.0.0.2" =
      .ok ([⟨1, "10.0.0.1"⟩, ⟨2, "10.0.0.2"⟩], ⟨2, "10.0.0.2"⟩) := by
  constructor
  · exact (c9_endpoint_add_spec [⟨"10.0.0.1"⟩] "10.0.0.1" [] "x").1
      ⟨"10.0.0.1"⟩ rfl
  · exact (((c9_endpoint_add_spec [] "x" [⟨1, "10.0.0.1"⟩]
      "10.0.0.2").2.2.2 rfl).1).trans rfl

/-- C10: when reserve_specific_vlan finds the requested
(physical_network, vlan_id) record already allocated, it raises
FlatNetworkInUse when vlan_id equals the flat-network constant and
VlanIdInUse for every other vlan_id; in both cases the raise aborts the
transaction before any write, so the record's allocated flag is
unchanged (the error result carries no store).  Stated for every value
of the constant, whose defining module is not under src. -/
theorem c10_reserve_specific_vlan_errors (flat : Int)
    (s : List N1kvVlanAllocation) (pn : String) (v : Int)
    (a : N1kvVlanAllocation)
    (hf : s.filter
      (fun b => b.physical_network == pn && b.vlan_id == v) = [a])
    (ha : a.allocated = true) :
    (v = flat →
      reserve_specific_vlan flat s pn v =
        .error (.flatNetworkInUse pn)) ∧
    (v ≠ flat →
      reserve_specific_vlan flat s pn v =
        .error (.vlanIdInUse v pn)) := by
  constructor
  · intro hv
    unfold reserve_specific_vlan
    rw [hf]
    simp [oneResult, ha, hv]
  · intro hv
    unfold reserve_specific_vlan
    rw [hf]
    simp [oneResult, ha, hv]

/-- C10 witness: with the flat constant instantiated to -1, reserving
the allocated flat vlan raises FlatNetworkInUse and reserving any other
allocated vlan raises VlanIdInUse. -/
theorem c10_witness :
    reserve_specific_vlan (-1) [⟨"p", -1, true⟩] "p" (-1) =
      .error (.flatNetworkInUse "p") ∧
    reserve_specific_vlan (-1) [⟨"p", 7, true⟩] "p" 7 =
      .error (.vlanIdInUse 7 "p") := by
  constructor
  · exact (c10_reserve_specific_vlan_errors (-1) [⟨"p", -1, true⟩] "p"
      (-1) ⟨"p", -1, true⟩ rfl rfl).1 rfl
  · exact (c10_reserve_specific_vlan_errors (-1) [⟨"p", 7, true⟩] "p" 7
      ⟨"p", 7, true⟩ rfl rfl).2 (by decide)

end Neutron
